import Mathlib

/-!
Verification of the dynamic task-orchestration engine of the
`build-an-agent-from-scratch` repository.

The definitions below are a shallow embedding of the Go source:
* `Task`, `Result`, `Plan` mirror `agent/types.go`;
* `enrichTask`, `execStep`, `execLoop`, `executeAgent` mirror
  `PlanningAgent.Execute` in `agent/agent.go` (the per-step context
  injection, registry dispatch, dynamic task splicing and the abort
  behaviour on unknown types and transport errors);
* `planWithReview` mirrors `PlanningAgent.PlanWithReview`;
* `reflectLoop` / `searchExecute` mirror `SearchSubagent.Execute`
  (the bounded reflection loop and the provider fallback chain).

Go maps `map[string]interface{}` are modelled as association lists over
an inductive value type; the dynamic type assertion `.([]string)` is
modelled by matching on the `strList` constructor.  The unbounded
executor loop is modelled with explicit fuel (`none` = fuel exhausted).
-/

namespace Agent

/-- Values stored in a task parameter map (`map[string]interface{}` in Go).
`str` models Go `string`, `strList` models Go `[]string`; every other
dynamic type is opaque (`other`), on which the `.([]string)` and
`.(string)` type assertions fail. -/
inductive PValue where
  | str (s : String)
  | strList (l : List String)
  | other (tag : String)
deriving Repr, DecidableEq, Inhabited

/-- Lookup in a parameter map (Go map indexing). -/
def lookupParam : List (String × PValue) → String → Option PValue
  | [], _ => none
  | (k, v) :: ps, key => if k = key then some v else lookupParam ps key

/-- Insert/replace in a parameter map (Go map assignment). -/
def insertParam : List (String × PValue) → String → PValue → List (String × PValue)
  | [], key, v => [(key, v)]
  | (k, w) :: ps, key, v =>
      if k = key then (key, v) :: ps else (k, w) :: insertParam ps key v

/-- `Task` from `agent/types.go`: a typed unit of work. `TaskType` is a
Go string type, modelled directly as `String`. -/
structure Task where
  type : String
  description : String
  parameters : List (String × PValue)
deriving Repr, DecidableEq, Inhabited

/-- `Result` from `agent/types.go`: the outcome of one subagent execution. -/
structure Result where
  taskType : String
  success : Bool
  output : String
  error : String
  metadata : List (String × PValue)
  newTasks : List Task
deriving Repr, DecidableEq, Inhabited

/-- `Plan` from `agent/types.go`. -/
structure Plan where
  tasks : List Task
  description : String
deriving Repr, DecidableEq, Inhabited

/-- One entry of the conversation history (`openai.ChatCompletionMessage`). -/
structure ChatMessage where
  role : String
  content : String
deriving Repr, DecidableEq, Inhabited

/-- A subagent (`Subagent.Execute` in Go) returns a `Result` together with
an optional transport error (`error` in Go; `some e` models `err != nil`). -/
abbrev Handler := Task → Result × Option String

/-- The capability registry `map[TaskType]Subagent`. -/
abbrev Registry := String → Option Handler

/-- The `global_context` string built in `Execute` from the conversation
history: every `user`-role message contributes `"User: <content>\n"`. -/
def buildGlobalContext (msgs : List ChatMessage) : String :=
  msgs.foldl (fun acc m => if m.role = "user" then acc ++ "User: " ++ m.content ++ "\n" else acc) ""

/-- The parameter enrichment performed by `Execute` before dispatching a
task (agent.go lines 247-270): ensure the map exists, set
`global_context`, and, when the per-call accumulator is non-empty, merge
it into the `context` parameter (append after an existing `[]string`
value, else overwrite). -/
def enrichTask (g : String) (contextData : List String) (t : Task) : Task :=
  let ps := insertParam t.parameters "global_context" (PValue.str g)
  let ps2 :=
    if contextData.length > 0 then
      match lookupParam ps "context" with
      | some (PValue.strList existing) =>
          insertParam ps "context" (PValue.strList (existing ++ contextData))
      | _ => insertParam ps "context" (PValue.strList contextData)
    else ps
  { t with parameters := ps2 }

/-- Executor state: the (growable) task sequence, the cursor `i`, the
recorded results and the per-call context accumulator. -/
structure EState where
  tasks : List Task
  i : Nat
  results : List Result
  contextData : List String
deriving Repr, DecidableEq, Inhabited

/-- Outcome of one iteration of the `Execute` loop. -/
inductive StepOut where
  | done (s : EState)
  | next (s : EState)
  | fail (msg : String)
deriving Repr, DecidableEq, Inhabited

/-- One iteration of the loop in `PlanningAgent.Execute` (agent.go lines
237-318): take `tasks[i]`, enrich its parameters, look up the handler
(absence is fatal), invoke it (a transport error is fatal), record the
`Result`; on success splice `NewTasks` in after position `i` and append
the formatted output to the accumulator; advance the cursor. -/
def execStep (reg : Registry) (msgs : List ChatMessage) (s : EState) : StepOut :=
  if h : s.i < s.tasks.length then
    let task := s.tasks[s.i]
    let etask := enrichTask (buildGlobalContext msgs) s.contextData task
    match reg task.type with
    | none => StepOut.fail ("unknown task type: " ++ task.type)
    | some handler =>
      match handler etask with
      | (_, some e) => StepOut.fail ("task " ++ toString (s.i + 1) ++ " failed: " ++ e)
      | (result, none) =>
        let results2 := s.results ++ [result]
        if result.success then
          let tasks2 :=
            if result.newTasks.length > 0 then
              s.tasks.take (s.i + 1) ++ result.newTasks ++ s.tasks.drop (s.i + 1)
            else s.tasks
          StepOut.next ⟨tasks2, s.i + 1, results2,
            s.contextData ++ ["Output from " ++ task.type ++ " task:\n" ++ result.output]⟩
        else
          StepOut.next ⟨s.tasks, s.i + 1, results2, s.contextData⟩
  else StepOut.done s

/-- The `Execute` loop, driven by explicit fuel (`none` = fuel ran out;
the Go loop has no bound of its own). `some (.error m)` models
`return nil, err`: the caller receives no results. -/
def execLoop (reg : Registry) (msgs : List ChatMessage) :
    Nat → EState → Option (Except String EState)
  | 0, _ => none
  | fuel + 1, s =>
    match execStep reg msgs s with
    | StepOut.done s2 => some (Except.ok s2)
    | StepOut.fail m => some (Except.error m)
    | StepOut.next s2 => execLoop reg msgs fuel s2

/-- `PlanningAgent.Execute`: run the plan from cursor 0 with empty
results and an empty context accumulator, returning the recorded
results in execution order. -/
def executeAgent (reg : Registry) (msgs : List ChatMessage) (plan : Plan) (fuel : Nat) :
    Option (Except String (List Result)) :=
  (execLoop reg msgs fuel ⟨plan.tasks, 0, [], []⟩).map (fun out => out.map (fun st => st.results))

/-! ### Characterization of linear (insertion-free) runs

These definitions restate, for proof purposes, what one dispatch of the
executor produces; they are proved equal to the behaviour of `execStep`
below and are used to describe whole runs. -/

/-- The `Result` produced by dispatching task `t` with accumulator `cd`
(the handler is applied to the enriched task; unreachable junk when the
type is unregistered). -/
def dispatchR (reg : Registry) (msgs : List ChatMessage) (cd : List String) (t : Task) : Result :=
  match reg t.type with
  | some f => (f (enrichTask (buildGlobalContext msgs) cd t)).1
  | none => default

/-- The accumulator entry recorded for a successful task. -/
def entryOf (t : Task) (r : Result) : String :=
  "Output from " ++ t.type ++ " task:\n" ++ r.output

/-- The context accumulator after dispatching `t` with accumulator `cd`. -/
def afterCtx (reg : Registry) (msgs : List ChatMessage) (cd : List String) (t : Task) : List String :=
  if (dispatchR reg msgs cd t).success then cd ++ [entryOf t (dispatchR reg msgs cd t)] else cd

/-- The results recorded by executing the tasks `ts` in order starting
from accumulator `cd`, assuming no task aborts or splices. -/
def linearResults (reg : Registry) (msgs : List ChatMessage) : List Task → List String → List Result
  | [], _ => []
  | t :: ts, cd => dispatchR reg msgs cd t :: linearResults reg msgs ts (afterCtx reg msgs cd t)

/-- The context accumulator after executing the tasks `ts` in order. -/
def linearCtx (reg : Registry) (msgs : List ChatMessage) : List Task → List String → List String
  | [], cd => cd
  | t :: ts, cd => linearCtx reg msgs ts (afterCtx reg msgs cd t)

/-- A task is tame (for a registry and history) when its dispatch, under
any accumulator, has a registered handler, raises no transport error and
returns no new tasks.  Tame tasks may still fail semantically. -/
def Tame (reg : Registry) (msgs : List ChatMessage) (t : Task) : Prop :=
  ∀ cd : List String, ∃ f : Handler,
    reg t.type = some f ∧
    (f (enrichTask (buildGlobalContext msgs) cd t)).2 = none ∧
    (f (enrichTask (buildGlobalContext msgs) cd t)).1.newTasks = []

/-! ### Instrumented executor loop

`execLoopT` additionally records the trace of (dispatched task, result)
pairs; it is proved to agree with `execLoop` and is used to state
properties about "every executed task" of a run. -/

/-- The `Execute` loop instrumented with the execution trace.  On a
`next` step the dispatched task together with the result it produced
(`dispatchR`) is appended to the trace. -/
def execLoopT (reg : Registry) (msgs : List ChatMessage) :
    Nat → EState → List (Task × Result) → Option (Except String (EState × List (Task × Result)))
  | 0, _, _ => none
  | fuel + 1, s, tr =>
    match execStep reg msgs s with
    | StepOut.done s2 => some (Except.ok (s2, tr))
    | StepOut.fail m => some (Except.error m)
    | StepOut.next s2 =>
        if h : s.i < s.tasks.length then
          execLoopT reg msgs fuel s2
            (tr ++ [(s.tasks[s.i], dispatchR reg msgs s.contextData s.tasks[s.i])])
        else
          execLoopT reg msgs fuel s2 tr

/-! ### Concrete gadgets used by the witness theorems -/

/-- A plain task of type `T`. -/
def tT (n : String) : Task := { type := "T", description := n, parameters := [] }

/-- A result of type `T` echoing the dispatched description, no new tasks. -/
def rEcho (t : Task) : Result :=
  { taskType := "T", success := true, output := t.description, error := "",
    metadata := [], newTasks := [] }

/-- Echo handler for type `T`. -/
def fEcho : Handler := fun t => (rEcho t, none)

/-- Registry with only the echo handler for `T`. -/
def regEcho : Registry := fun ty => if ty = "T" then some fEcho else none

/-- The result returned by the splicing handler of the witnesses. -/
def rSplice : Result :=
  { taskType := "S", success := true, output := "out0", error := "",
    metadata := [], newTasks := [tT "n1"] }

/-- Handler that always succeeds returning one new task. -/
def fSplice : Handler := fun _ => (rSplice, none)

/-- Registry dispatching `S` to the splicing handler and `T` to the echo
handler. -/
def regSplice : Registry := fun ty =>
  if ty = "S" then some fSplice else if ty = "T" then some fEcho else none

/-- Initial executor state over `[S-task, T-task]`. -/
def sSplice : EState :=
  ⟨[{ type := "S", description := "a", parameters := [] }, tT "b"], 0, [], []⟩

/-- A plain task of type `F` (semantic failure). -/
def fTask : Task := { type := "F", description := "x", parameters := [] }

/-- A semantically failed result: `success = false` with an error text. -/
def rFail : Result :=
  { taskType := "F", success := false, output := "", error := "boom",
    metadata := [], newTasks := [] }

/-- Handler always reporting a semantic failure (no transport error). -/
def fFail : Handler := fun _ => (rFail, none)

/-- A semantically failed result that nevertheless carries new tasks. -/
def rFailNew : Result :=
  { taskType := "F", success := false, output := "", error := "nope",
    metadata := [], newTasks := [tT "ignored"] }

/-- Handler failing semantically while returning new tasks. -/
def fFailNew : Handler := fun _ => (rFailNew, none)

/-- Handler raising a transport error. -/
def fTrans : Handler := fun _ => (rFail, some "net down")

/-- Registry: `T` echoes, `F` fails semantically. -/
def regMix : Registry := fun ty =>
  if ty = "T" then some fEcho else if ty = "F" then some fFail else none

/-- Registry dispatching `F` to the failing-with-new-tasks handler. -/
def regFailNew : Registry := fun ty => if ty = "F" then some fFailNew else none

/-- Registry dispatching `X` to the transport-error handler. -/
def regTrans : Registry := fun ty => if ty = "X" then some fTrans else none

/-- Executor state over `[F-task, T-task]`. -/
def sFail : EState := ⟨[fTask, tT "b"], 0, [], []⟩

/-- Executor state over a single `X`-task. -/
def sTrans : EState := ⟨[{ type := "X", description := "x", parameters := [] }], 0, [], []⟩

/-- Formatted accumulator entries of the successful steps of a trace. -/
def traceCtx (tr : List (Task × Result)) : List String :=
  (tr.filter (fun p => p.2.success)).map (fun p => entryOf p.1 p.2)

/-! ### Plan review (`PlanningAgent.PlanWithReview`, agent.go lines 186-223)

The plan generator (`PlanningAgent.Plan`) is modelled as an oracle
`gen : String → Except String Plan`; the interaction handler's
`ReviewPlan` as a round-indexed oracle (a stateful reviewer).  The loop
is instrumented with the list of goals handed to the generator. -/

/-- The review loop of `PlanWithReview`: ask the reviewer; an error
fails the call, an empty modification approves the current plan, a
non-empty modification re-plans with it as the new goal and repeats. -/
def planReviewLoop (gen : String → Except String Plan)
    (review : Nat → Plan → Except String String) :
    Nat → Plan → Nat → List String → Option (Except String Plan × List String)
  | 0, _, _, _ => none
  | fuel + 1, plan, round, goals =>
    match review round plan with
    | Except.error e => some (Except.error ("plan review failed: " ++ e), goals)
    | Except.ok m =>
      if m = "" then some (Except.ok plan, goals)
      else
        match gen m with
        | Except.error e => some (Except.error ("re-planning failed: " ++ e), goals ++ [m])
        | Except.ok p2 => planReviewLoop gen review fuel p2 (round + 1) (goals ++ [m])

/-- `PlanningAgent.PlanWithReview`: generate the initial plan; with no
interaction handler return it verbatim, otherwise run the review loop.
The second component records every goal passed to the generator. -/
def planWithReview (gen : String → Except String Plan)
    (review : Option (Nat → Plan → Except String String)) (userRequest : String) (fuel : Nat) :
    Option (Except String Plan × List String) :=
  match gen userRequest with
  | Except.error e => some (Except.error e, [userRequest])
  | Except.ok plan =>
    match review with
    | none => some (Except.ok plan, [userRequest])
    | some rv => planReviewLoop gen rv fuel plan 0 [userRequest]

/-! ### Search subagent (`SearchSubagent.Execute`)

The search providers (`tool.TavilySearch`, `tool.DuckDuckGoSearch`,
`tool.WikipediaSearch`) and the reflection LLM call are oracles; the
LLM oracle is round-indexed.  `Except.error e` models `err != nil`. -/

/-- Go `strings.ToUpper`, modelled character-wise (ASCII case map). -/
def toUpperStr (s : String) : String := String.mk (s.data.map Char.toUpper)

/-- Go `strings.TrimSpace`: strip leading and trailing whitespace. -/
def trimString (s : String) : String :=
  String.mk (((s.data.dropWhile Char.isWhitespace).reverse.dropWhile Char.isWhitespace).reverse)

/-- Substring test (Go `strings.Contains`): does `sub` occur in the
character list? -/
def containsSub (sub : List Char) : List Char → Bool
  | [] => sub.isEmpty
  | c :: rest => sub.isPrefixOf (c :: rest) || containsSub sub rest

/-- The sufficiency check of the reflection loop:
`strings.Contains(strings.ToUpper(decision), "SUFFICIENT")`. -/
def containsSufficient (d : String) : Bool :=
  containsSub "SUFFICIENT".toList (toUpperStr d).toList

/-- The cutset of `strings.Trim(newQuery, "\"'")`: double and single
quote characters. -/
def quoteChars : List Char := [Char.ofNat 34, Char.ofNat 39]

/-- Go `strings.Trim(s, "\"'")`: strip leading and trailing quotes. -/
def trimQuotes (s : String) : String :=
  String.mk (((s.data.dropWhile (fun c => quoteChars.contains c)).reverse.dropWhile
    (fun c => quoteChars.contains c)).reverse)

/-- The reflection prompt built from the user query and the accumulated
search results (subagents.go lines 88-94). -/
def reflectionPrompt (query acc : String) : String :=
  "用户查询: " ++ query ++ "\n当前搜索结果:\n" ++ acc ++
    "\n\n信息是否足以回答用户的查询？\n如果是，请仅回复 \"SUFFICIENT\"。\n" ++
    "如果否，请回复一个新的、更精细的搜索查询以查找缺失的信息。不要添加任何其他文本。"

/-- Truncation of an oversized reflection prompt to the fixed budget of
80000 characters, with an explicit marker. -/
def truncatePrompt (p : String) : String :=
  if p.length > 80000 then p.take 80000 ++ "\n...(truncated)" else p

/-- The iteration ceiling of the reflection loop (`maxIterations := 3`). -/
def maxIterations : Nat := 3

/-- The reflection loop of `SearchSubagent.Execute` (subagents.go lines
86-164): ask the evaluation LLM whether the accumulated results suffice;
an LLM error stops the loop keeping the accumulation; an answer
containing `SUFFICIENT` stops it; otherwise the trimmed answer is a
refined query, searched via Tavily with DuckDuckGo fallback, and a
successful refinement search is appended to the accumulation. -/
def reflectLoop (tavily ddg : String → Except String String)
    (llm : Nat → String → Except String String) (query : String) :
    Nat → Nat → String → String
  | 0, _, acc => acc
  | n + 1, round, acc =>
    match llm round (truncatePrompt (reflectionPrompt query acc)) with
    | Except.error _ => acc
    | Except.ok content =>
      let decision := trimString content
      if containsSufficient decision then acc
      else
        let newQuery := trimQuotes decision
        let acc2 :=
          match tavily newQuery with
          | Except.ok r => acc ++ "\n\n--- Additional Search Results ---\n" ++ r
          | Except.error _ =>
            match ddg newQuery with
            | Except.ok r => acc ++ "\n\n--- Additional Search Results ---\n" ++ r
            | Except.error _ => acc
        reflectLoop tavily ddg llm query n (round + 1) acc2

/-- The reflection loop instrumented with the number of evaluation
calls and the number of refinement queries performed; its first
component is proved equal to `reflectLoop`. -/
def reflectLoopT (tavily ddg : String → Except String String)
    (llm : Nat → String → Except String String) (query : String) :
    Nat → Nat → String → String × Nat × Nat
  | 0, _, acc => (acc, 0, 0)
  | n + 1, round, acc =>
    match llm round (truncatePrompt (reflectionPrompt query acc)) with
    | Except.error _ => (acc, 1, 0)
    | Except.ok content =>
      let decision := trimString content
      if containsSufficient decision then (acc, 1, 0)
      else
        let newQuery := trimQuotes decision
        let acc2 :=
          match tavily newQuery with
          | Except.ok r => acc ++ "\n\n--- Additional Search Results ---\n" ++ r
          | Except.error _ =>
            match ddg newQuery with
            | Except.ok r => acc ++ "\n\n--- Additional Search Results ---\n" ++ r
            | Except.error _ => acc
        let rec2 := reflectLoopT tavily ddg llm query n (round + 1) acc2
        (rec2.1, rec2.2.1 + 1, rec2.2.2 + 1)

/-- The Wikipedia supplement after the reflection loop (subagents.go
lines 166-170): on a successful, non-empty Wikipedia answer the
accumulated results are wrapped together with it. -/
def wikiWrap (wiki : String → Except String String) (query acc : String) : String :=
  match wiki query with
  | Except.ok w => if w ≠ "" then "网络搜索结果:\n" ++ acc ++ "\n\n维基百科结果:\n" ++ w else acc
  | Except.error _ => acc

/-- The successful tail of `SearchSubagent.Execute`: run the reflection
loop on the initial results, add the Wikipedia supplement and return a
successful `Result`. -/
def searchFinish (tavily ddg wiki : String → Except String String)
    (llm : Nat → String → Except String String) (query sr : String) :
    Result × Option String :=
  ({ taskType := "SEARCH", success := true,
     output := wikiWrap wiki query (reflectLoop tavily ddg llm query maxIterations 0 sr),
     error := "", metadata := [("query", PValue.str query)], newTasks := [] }, none)

/-- `SearchSubagent.Execute` (subagents.go lines 41-217): extract the
query, search via Tavily with DuckDuckGo fallback — if both fail the
task fails with the DuckDuckGo error and a transport error — then run
the reflection loop and the Wikipedia supplement. -/
def searchExecute (tavily ddg wiki : String → Except String String)
    (llm : Nat → String → Except String String) (task : Task) :
    Result × Option String :=
  let query :=
    match lookupParam task.parameters "query" with
    | some (PValue.str q) => q
    | _ => task.description
  match tavily query with
  | Except.ok sr => searchFinish tavily ddg wiki llm query sr
  | Except.error _ =>
    match ddg query with
    | Except.ok sr => searchFinish tavily ddg wiki llm query sr
    | Except.error e2 =>
      ({ taskType := "SEARCH", success := false, output := "", error := e2,
         metadata := [], newTasks := [] }, some e2)

/-! ### Further concrete gadgets for witnesses -/

/-- Task carrying its own `context` parameter list. -/
def tOwnCtx : Task :=
  { type := "T", description := "c", parameters := [("context", PValue.strList ["o1"])] }

/-- Executor state over a single echo task. -/
def sEcho : EState := ⟨[tT "a"], 0, [], []⟩

/-- The `S`-task used by the insertion witnesses. -/
def sTask : Task := { type := "S", description := "a", parameters := [] }

/-- Echo result for description `a`. -/
def rA : Result :=
  { taskType := "T", success := true, output := "a", error := "",
    metadata := [], newTasks := [] }

/-- Echo result for description `b`. -/
def rB : Result :=
  { taskType := "T", success := true, output := "b", error := "",
    metadata := [], newTasks := [] }

/-- Execution trace of the mixed success/failure witness run. -/
def trMix : List (Task × Result) := [(tT "a", rA), (fTask, rFail), (tT "b", rB)]

/-- Final executor state of the mixed witness run. -/
def stMix : EState :=
  ⟨[tT "a", fTask, tT "b"], 3, [rA, rFail, rB],
    ["Output from T task:\na", "Output from T task:\nb"]⟩

/-- Concrete plan `A` of the review witnesses. -/
def planA : Plan := ⟨[tT "a"], "plan A"⟩

/-- Concrete plan `B` of the review witnesses. -/
def planB : Plan := ⟨[tT "b"], "plan B"⟩

/-- Plan generator oracle: `goal` yields plan `A`, `modify it` yields
plan `B`, everything else errors. -/
def genAB : String → Except String Plan := fun g =>
  if g = "goal" then Except.ok planA
  else if g = "modify it" then Except.ok planB
  else Except.error "no plan"

/-- Reviewer requesting one modification and then approving. -/
def reviewOnce : Nat → Plan → Except String String := fun r _ =>
  if r = 0 then Except.ok "modify it" else Except.ok ""

/-- Reviewer that always fails. -/
def reviewErr : Nat → Plan → Except String String := fun _ _ => Except.error "review broke"

/-- Always-failing Tavily oracle. -/
def tavFail : String → Except String String := fun _ => Except.error "tavily unavailable"

/-- Always-failing DuckDuckGo oracle. -/
def ddgFail : String → Except String String := fun _ => Except.error "duckduckgo unavailable"

/-- Always-successful Tavily oracle. -/
def tavOk : String → Except String String := fun q => Except.ok ("results for " ++ q)

/-- Always-successful Wikipedia oracle. -/
def wikiOk : String → Except String String := fun _ => Except.ok "wikipedia content"

/-- Evaluation oracle that never finds the results sufficient. -/
def llmInsufficient : Nat → String → Except String String :=
  fun _ _ => Except.ok "more data needed"

/-- Evaluation oracle that immediately answers `SUFFICIENT`. -/
def llmSufficient : Nat → String → Except String String :=
  fun _ _ => Except.ok "SUFFICIENT"

/-- Always-failing evaluation oracle. -/
def llmErr : Nat → String → Except String String := fun _ _ => Except.error "llm down"

/-- Search task with a `query` parameter. -/
def taskQ : Task :=
  { type := "SEARCH", description := "d", parameters := [("query", PValue.str "golang")] }

/-- Accumulator after the inserting step of the insertion witness. -/
def c2W : List String :=
  linearCtx regSplice [] [tT "a"] [] ++
    [entryOf sTask (dispatchR regSplice [] (linearCtx regSplice [] [tT "a"] []) sTask)]

/-- Accumulator after the inserted task of the insertion witness. -/
def c3W : List String := linearCtx regSplice [] [tT "n1"] c2W

/-! ### Step characterization lemmas -/

theorem execStep_done (reg : Registry) (msgs : List ChatMessage) (s : EState)
    (hi : ¬ s.i < s.tasks.length) : execStep reg msgs s = StepOut.done s := by
  unfold execStep
  rw [dif_neg hi]

theorem execStep_unknown (reg : Registry) (msgs : List ChatMessage) (s : EState)
    (hi : s.i < s.tasks.length) (t : Task) (ht : s.tasks[s.i] = t)
    (hreg : reg t.type = none) :
    execStep reg msgs s = StepOut.fail ("unknown task type: " ++ t.type) := by
  unfold execStep
  rw [dif_pos hi]
  simp only [ht, hreg]

theorem execStep_transport (reg : Registry) (msgs : List ChatMessage) (s : EState)
    (hi : s.i < s.tasks.length) (t : Task) (ht : s.tasks[s.i] = t)
    (f : Handler) (r : Result) (e : String)
    (hreg : reg t.type = some f)
    (hf : f (enrichTask (buildGlobalContext msgs) s.contextData t) = (r, some e)) :
    execStep reg msgs s = StepOut.fail ("task " ++ toString (s.i + 1) ++ " failed: " ++ e) := by
  unfold execStep
  rw [dif_pos hi]
  simp only [ht, hreg, hf]

theorem execStep_failure (reg : Registry) (msgs : List ChatMessage) (s : EState)
    (hi : s.i < s.tasks.length) (t : Task) (ht : s.tasks[s.i] = t)
    (f : Handler) (r : Result)
    (hreg : reg t.type = some f)
    (hf : f (enrichTask (buildGlobalContext msgs) s.contextData t) = (r, none))
    (hs : r.success = false) :
    execStep reg msgs s = StepOut.next ⟨s.tasks, s.i + 1, s.results ++ [r], s.contextData⟩ := by
  unfold execStep
  rw [dif_pos hi]
  simp only [ht, hreg, hf, hs, Bool.false_eq_true, if_false]

theorem execStep_success_nonew (reg : Registry) (msgs : List ChatMessage) (s : EState)
    (hi : s.i < s.tasks.length) (t : Task) (ht : s.tasks[s.i] = t)
    (f : Handler) (r : Result)
    (hreg : reg t.type = some f)
    (hf : f (enrichTask (buildGlobalContext msgs) s.contextData t) = (r, none))
    (hs : r.success = true) (hn : r.newTasks = []) :
    execStep reg msgs s = StepOut.next ⟨s.tasks, s.i + 1, s.results ++ [r],
      s.contextData ++ ["Output from " ++ t.type ++ " task:\n" ++ r.output]⟩ := by
  unfold execStep
  rw [dif_pos hi]
  simp only [ht, hreg, hf, hs, if_true, hn, List.length_nil, gt_iff_lt, Nat.lt_irrefl, if_false]

theorem execStep_success_new (reg : Registry) (msgs : List ChatMessage) (s : EState)
    (hi : s.i < s.tasks.length) (t : Task) (ht : s.tasks[s.i] = t)
    (f : Handler) (r : Result)
    (hreg : reg t.type = some f)
    (hf : f (enrichTask (buildGlobalContext msgs) s.contextData t) = (r, none))
    (hs : r.success = true) (hn : r.newTasks.length > 0) :
    execStep reg msgs s = StepOut.next
      ⟨s.tasks.take (s.i + 1) ++ r.newTasks ++ s.tasks.drop (s.i + 1), s.i + 1,
        s.results ++ [r],
        s.contextData ++ ["Output from " ++ t.type ++ " task:\n" ++ r.output]⟩ := by
  unfold execStep
  rw [dif_pos hi]
  simp only [ht, hreg, hf, hs, if_true, hn, gt_iff_lt, if_pos]

/-! ### Linear run lemmas -/

theorem execLoop_succ (reg : Registry) (msgs : List ChatMessage) (fuel : Nat) (s : EState) :
    execLoop reg msgs (fuel + 1) s =
      match execStep reg msgs s with
      | StepOut.done s2 => some (Except.ok s2)
      | StepOut.fail m => some (Except.error m)
      | StepOut.next s2 => execLoop reg msgs fuel s2 := rfl

theorem execLoop_done (reg : Registry) (msgs : List ChatMessage) (s : EState)
    (hi : ¬ s.i < s.tasks.length) (fuel : Nat) :
    execLoop reg msgs (fuel + 1) s = some (Except.ok s) := by
  rw [execLoop_succ, execStep_done reg msgs s hi]

theorem execLoop_segment (reg : Registry) (msgs : List ChatMessage) (ts2 : List Task)
    (H : ∀ t ∈ ts2, Tame reg msgs t) :
    ∀ (pre rest : List Task) (res : List Result) (cd : List String) (fuel : Nat),
    execLoop reg msgs (ts2.length + fuel) ⟨pre ++ ts2 ++ rest, pre.length, res, cd⟩ =
      execLoop reg msgs fuel ⟨pre ++ ts2 ++ rest, pre.length + ts2.length,
        res ++ linearResults reg msgs ts2 cd, linearCtx reg msgs ts2 cd⟩ := by
  induction ts2 with
  | nil =>
    intro pre rest res cd fuel
    simp [linearResults, linearCtx]
  | cons t ts ih =>
    intro pre rest res cd fuel
    have hts : ∀ u ∈ ts, Tame reg msgs u := fun u hu => H u (List.mem_cons_of_mem t hu)
    obtain ⟨f, hreg, hne, hnn⟩ := H t (List.mem_cons_self t ts) cd
    have hi : pre.length < (pre ++ (t :: ts) ++ rest).length := by
      simp [List.length_append]
    have hi1 : pre.length < (pre ++ (t :: ts)).length := by simp
    have hget : (pre ++ (t :: ts) ++ rest)[pre.length] = t := by
      rw [List.getElem_append_left hi1, List.getElem_append_right (Nat.le_refl pre.length)]
      simp
    have hf : f (enrichTask (buildGlobalContext msgs) cd t) =
        ((f (enrichTask (buildGlobalContext msgs) cd t)).1, none) := by
      rw [← hne]
    have hdr : dispatchR reg msgs cd t = (f (enrichTask (buildGlobalContext msgs) cd t)).1 := by
      unfold dispatchR
      rw [hreg]
    have hlen1 : (t :: ts).length + fuel = (ts.length + fuel) + 1 := by
      simp only [List.length_cons]
      omega
    have hihyp := ih hts (pre ++ [t]) rest
    by_cases hsucc : (f (enrichTask (buildGlobalContext msgs) cd t)).1.success = true
    · have hstep := execStep_success_nonew reg msgs
        ⟨pre ++ (t :: ts) ++ rest, pre.length, res, cd⟩ hi t hget f
        ((f (enrichTask (buildGlobalContext msgs) cd t)).1) hreg hf hsucc hnn
      have hctx : afterCtx reg msgs cd t =
          cd ++ ["Output from " ++ t.type ++ " task:\n" ++
            (f (enrichTask (buildGlobalContext msgs) cd t)).1.output] := by
        unfold afterCtx entryOf
        rw [hdr, if_pos hsucc]
      rw [hlen1, execLoop_succ, hstep]
      dsimp only
      have hrw1 : pre ++ (t :: ts) ++ rest = (pre ++ [t]) ++ ts ++ rest := by simp
      have hrw2 : pre.length + 1 = (pre ++ [t]).length := by simp
      have step2 := hihyp (res ++ [(f (enrichTask (buildGlobalContext msgs) cd t)).1])
        (afterCtx reg msgs cd t) fuel
      rw [hctx] at step2
      rw [hrw1, hrw2, step2]
      have hlin : linearResults reg msgs (t :: ts) cd =
          dispatchR reg msgs cd t :: linearResults reg msgs ts (afterCtx reg msgs cd t) := rfl
      rw [hlin, hdr, hctx]
      simp [linearCtx, hctx, List.length_append, Nat.add_comm, Nat.add_assoc, Nat.add_left_comm]
    · have hsucc2 : (f (enrichTask (buildGlobalContext msgs) cd t)).1.success = false := by
        simp at hsucc
        exact hsucc
      have hstep := execStep_failure reg msgs
        ⟨pre ++ (t :: ts) ++ rest, pre.length, res, cd⟩ hi t hget f
        ((f (enrichTask (buildGlobalContext msgs) cd t)).1) hreg hf hsucc2
      have hctx : afterCtx reg msgs cd t = cd := by
        unfold afterCtx
        rw [hdr, if_neg]
        simp [hsucc2]
      rw [hlen1, execLoop_succ, hstep]
      dsimp only
      have hrw1 : pre ++ (t :: ts) ++ rest = (pre ++ [t]) ++ ts ++ rest := by simp
      have hrw2 : pre.length + 1 = (pre ++ [t]).length := by simp
      have step2 := hihyp (res ++ [(f (enrichTask (buildGlobalContext msgs) cd t)).1])
        (afterCtx reg msgs cd t) fuel
      rw [hctx] at step2
      rw [hrw1, hrw2, step2]
      have hlin : linearResults reg msgs (t :: ts) cd =
          dispatchR reg msgs cd t :: linearResults reg msgs ts (afterCtx reg msgs cd t) := rfl
      rw [hlin, hdr, hctx]
      simp [linearCtx, hctx, List.length_append, Nat.add_comm, Nat.add_assoc, Nat.add_left_comm]

theorem execLoop_linear (reg : Registry) (msgs : List ChatMessage) (ts : List Task)
    (H : ∀ t ∈ ts, Tame reg msgs t) :
    execLoop reg msgs (ts.length + 1) ⟨ts, 0, [], []⟩ =
      some (Except.ok ⟨ts, ts.length, linearResults reg msgs ts [], linearCtx reg msgs ts []⟩) := by
  have h := execLoop_segment reg msgs ts H [] [] [] [] 1
  simp only [List.nil_append, List.append_nil, List.length_nil, Nat.zero_add] at h
  rw [h, execLoop_done]
  simp

/-- Length of the linear result list equals the number of tasks run. -/
theorem linearResults_length (reg : Registry) (msgs : List ChatMessage) (ts : List Task) :
    ∀ cd, (linearResults reg msgs ts cd).length = ts.length := by
  induction ts with
  | nil => intro cd; rfl
  | cons t ts ih =>
    intro cd
    simp [linearResults, ih]

/-! ### Claims -/

/-- Claim C1: at every Executor step whose dispatched handler returns
`success = true` with a non-empty `NewTasks` sequence, the task sequence
immediately after the step equals
`tasks[0..i] ++ newTasks ++ tasks[i+1..]`; moreover the consumed prefix
(positions `0..i`) is unchanged, the unexecuted tail reappears exactly
once right after the inserted block (no element duplicated or dropped),
and the sequence only grows (length increases by `|newTasks|`). -/
theorem executor_splice_after_current (reg : Registry) (msgs : List ChatMessage) (s : EState)
    (hi : s.i < s.tasks.length) (t : Task) (ht : s.tasks[s.i] = t)
    (f : Handler) (r : Result)
    (hreg : reg t.type = some f)
    (hf : f (enrichTask (buildGlobalContext msgs) s.contextData t) = (r, none))
    (hs : r.success = true) (hn : r.newTasks.length > 0) :
    execStep reg msgs s = StepOut.next
      ⟨s.tasks.take (s.i + 1) ++ r.newTasks ++ s.tasks.drop (s.i + 1), s.i + 1,
        s.results ++ [r],
        s.contextData ++ ["Output from " ++ t.type ++ " task:\n" ++ r.output]⟩ ∧
    (s.tasks.take (s.i + 1) ++ r.newTasks ++ s.tasks.drop (s.i + 1)).take (s.i + 1) =
      s.tasks.take (s.i + 1) ∧
    (s.tasks.take (s.i + 1) ++ r.newTasks ++ s.tasks.drop (s.i + 1)).drop
        (s.i + 1 + r.newTasks.length) = s.tasks.drop (s.i + 1) ∧
    (s.tasks.take (s.i + 1) ++ r.newTasks ++ s.tasks.drop (s.i + 1)).length =
      s.tasks.length + r.newTasks.length := by
  have hA : (s.tasks.take (s.i + 1)).length = s.i + 1 := by
    rw [List.length_take]
    omega
  refine ⟨execStep_success_new reg msgs s hi t ht f r hreg hf hs hn, ?_, ?_, ?_⟩
  · rw [List.append_assoc, List.take_left' hA]
  · have hAB : (s.tasks.take (s.i + 1) ++ r.newTasks).length = s.i + 1 + r.newTasks.length := by
      rw [List.length_append, hA]
    rw [List.drop_left' hAB]
  · simp only [List.length_append, hA, List.length_drop]
    omega

/-- Claim C1 witness: a concrete two-task plan whose first handler
returns one new task. -/
theorem executor_splice_after_current_witness :
    execStep regSplice [] sSplice = StepOut.next
      ⟨sSplice.tasks.take (sSplice.i + 1) ++ rSplice.newTasks ++ sSplice.tasks.drop (sSplice.i + 1),
        sSplice.i + 1, sSplice.results ++ [rSplice],
        sSplice.contextData ++ ["Output from " ++ "S" ++ " task:\n" ++ rSplice.output]⟩ ∧
    (sSplice.tasks.take (sSplice.i + 1) ++ rSplice.newTasks ++
        sSplice.tasks.drop (sSplice.i + 1)).take (sSplice.i + 1) =
      sSplice.tasks.take (sSplice.i + 1) ∧
    (sSplice.tasks.take (sSplice.i + 1) ++ rSplice.newTasks ++
        sSplice.tasks.drop (sSplice.i + 1)).drop (sSplice.i + 1 + rSplice.newTasks.length) =
      sSplice.tasks.drop (sSplice.i + 1) ∧
    (sSplice.tasks.take (sSplice.i + 1) ++ rSplice.newTasks ++
        sSplice.tasks.drop (sSplice.i + 1)).length =
      sSplice.tasks.length + rSplice.newTasks.length :=
  executor_splice_after_current regSplice [] sSplice (by decide)
    { type := "S", description := "a", parameters := [] } rfl fSplice rSplice rfl rfl rfl
    (by decide)

/-- Claim C3: when the cursor reaches a task whose type has no
registered handler, the `Execute` call aborts immediately with the
unknown-task-type error and the caller receives no results (the error
return of `executeAgent` carries no `Result` values). -/
theorem executor_unknown_type_aborts (reg : Registry) (msgs : List ChatMessage)
    (ts : List Task) (j : Nat) (hj : j < ts.length)
    (Hpre : ∀ t ∈ ts.take j, Tame reg msgs t)
    (hreg : reg (ts[j].type) = none) :
    execLoop reg msgs (j + 1) ⟨ts, 0, [], []⟩ =
      some (Except.error ("unknown task type: " ++ ts[j].type)) ∧
    executeAgent reg msgs ⟨ts, ""⟩ (j + 1) =
      some (Except.error ("unknown task type: " ++ ts[j].type)) := by
  have hlen : (ts.take j).length = j := by
    rw [List.length_take]
    omega
  have htd : ts.take j ++ ts.drop j = ts := List.take_append_drop j ts
  have hseg := execLoop_segment reg msgs (ts.take j) Hpre [] (ts.drop j) [] [] 1
  simp only [List.nil_append, htd, hlen, List.length_nil, Nat.zero_add] at hseg
  have h1 : execLoop reg msgs (j + 1) ⟨ts, 0, [], []⟩ =
      some (Except.error ("unknown task type: " ++ ts[j].type)) := by
    rw [hseg, execLoop_succ,
      execStep_unknown reg msgs _ hj (ts[j]) rfl hreg]
  refine ⟨h1, ?_⟩
  unfold executeAgent
  dsimp only
  rw [h1]
  rfl

/-- Claim C3 witness: a two-task plan whose second task's type `U` is
unregistered; the first task echoes normally but the call still fails
wholesale. -/
theorem executor_unknown_type_aborts_witness :
    execLoop regEcho [] (1 + 1) ⟨[tT "a", { type := "U", description := "u", parameters := [] }], 0, [], []⟩ =
      some (Except.error ("unknown task type: " ++ "U")) ∧
    executeAgent regEcho [] ⟨[tT "a", { type := "U", description := "u", parameters := [] }], ""⟩ (1 + 1) =
      some (Except.error ("unknown task type: " ++ "U")) :=
  executor_unknown_type_aborts regEcho []
    [tT "a", { type := "U", description := "u", parameters := [] }] 1 (by decide)
    (by
      intro t htm
      have ht : t = tT "a" := by
        simpa using htm
      intro cd
      exact ⟨fEcho, by rw [ht]; rfl, by rfl, by rfl⟩)
    rfl

/-- Claim C4: the failure asymmetry of the Executor.  A handler `Result`
with `success = false` and no transport error is recorded verbatim and
the loop continues with the next task; a non-nil transport error aborts
`Execute` immediately with an error and no results. -/
theorem executor_failure_asymmetry (reg : Registry) (msgs : List ChatMessage) :
    (∀ (s : EState) (hi : s.i < s.tasks.length) (t : Task), s.tasks[s.i] = t →
      ∀ (f : Handler) (r : Result), reg t.type = some f →
        f (enrichTask (buildGlobalContext msgs) s.contextData t) = (r, none) →
        r.success = false →
        ∀ fuel : Nat,
          execStep reg msgs s =
            StepOut.next ⟨s.tasks, s.i + 1, s.results ++ [r], s.contextData⟩ ∧
          execLoop reg msgs (fuel + 1) s =
            execLoop reg msgs fuel ⟨s.tasks, s.i + 1, s.results ++ [r], s.contextData⟩) ∧
    (∀ (s : EState) (hi : s.i < s.tasks.length) (t : Task), s.tasks[s.i] = t →
      ∀ (f : Handler) (r : Result) (e : String), reg t.type = some f →
        f (enrichTask (buildGlobalContext msgs) s.contextData t) = (r, some e) →
        ∀ fuel : Nat,
          execStep reg msgs s =
            StepOut.fail ("task " ++ toString (s.i + 1) ++ " failed: " ++ e) ∧
          execLoop reg msgs (fuel + 1) s =
            some (Except.error ("task " ++ toString (s.i + 1) ++ " failed: " ++ e))) := by
  constructor
  · intro s hi t ht f r hreg hf hs fuel
    have hstep := execStep_failure reg msgs s hi t ht f r hreg hf hs
    exact ⟨hstep, by rw [execLoop_succ, hstep]⟩
  · intro s hi t ht f r e hreg hf fuel
    have hstep := execStep_transport reg msgs s hi t ht f r e hreg hf
    exact ⟨hstep, by rw [execLoop_succ, hstep]⟩

/-- Claim C4 witness: a concrete semantic failure (recorded, loop
continues) and a concrete transport error (aborts with no results). -/
theorem executor_failure_asymmetry_witness :
    (execStep regMix [] sFail = StepOut.next ⟨sFail.tasks, 1, [rFail], []⟩ ∧
      execLoop regMix [] (1 + 1) sFail =
        execLoop regMix [] 1 ⟨sFail.tasks, 1, [rFail], []⟩) ∧
    (execStep regTrans [] sTrans = StepOut.fail ("task " ++ toString 1 ++ " failed: " ++ "net down") ∧
      execLoop regTrans [] (0 + 1) sTrans =
        some (Except.error ("task " ++ toString 1 ++ " failed: " ++ "net down"))) :=
  ⟨(executor_failure_asymmetry regMix []).1 sFail (by decide) fTask rfl fFail rFail rfl rfl rfl 1,
   (executor_failure_asymmetry regTrans []).2 sTrans (by decide)
     { type := "X", description := "x", parameters := [] } rfl fTrans rFail "net down" rfl rfl 0⟩

/-- Claim C10: a step whose handler reports `success = false` (without a
transport error) has no effect beyond recording the `Result`: the task
sequence is unchanged even though the failed result carries a non-empty
`NewTasks` list (the new tasks are discarded), and the context
accumulator is unchanged. -/
theorem failed_step_discards_new_tasks (reg : Registry) (msgs : List ChatMessage) (s : EState)
    (hi : s.i < s.tasks.length) (t : Task) (ht : s.tasks[s.i] = t)
    (f : Handler) (r : Result)
    (hreg : reg t.type = some f)
    (hf : f (enrichTask (buildGlobalContext msgs) s.contextData t) = (r, none))
    (hs : r.success = false) (_hn : r.newTasks.length > 0) :
    execStep reg msgs s = StepOut.next ⟨s.tasks, s.i + 1, s.results ++ [r], s.contextData⟩ :=
  execStep_failure reg msgs s hi t ht f r hreg hf hs

/-- Claim C10 witness: a handler failing with a non-empty `NewTasks`
list; the plan and the accumulator are left untouched. -/
theorem failed_step_discards_new_tasks_witness :
    execStep regFailNew [] sFail =
      StepOut.next ⟨sFail.tasks, 1, [rFailNew], []⟩ :=
  failed_step_discards_new_tasks regFailNew [] sFail (by decide) fTask rfl
    fFailNew rFailNew rfl rfl rfl (by decide)

/-! ### Parameter map lemmas -/

theorem lookupParam_insert_self (ps : List (String × PValue)) (key : String) (v : PValue) :
    lookupParam (insertParam ps key v) key = some v := by
  induction ps with
  | nil => simp [insertParam, lookupParam]
  | cons p ps ih =>
    obtain ⟨k, w⟩ := p
    by_cases hk : k = key
    · simp [insertParam, hk, lookupParam]
    · simp [insertParam, hk, lookupParam, ih]

theorem lookupParam_insert_other (ps : List (String × PValue)) (k1 : String) (v : PValue)
    (key : String) (h : k1 ≠ key) :
    lookupParam (insertParam ps k1 v) key = lookupParam ps key := by
  induction ps with
  | nil => simp [insertParam, lookupParam, h]
  | cons p ps ih =>
    obtain ⟨k, w⟩ := p
    by_cases hk : k = k1
    · subst hk
      simp [insertParam, lookupParam, h]
    · simp [insertParam, hk, lookupParam, ih]

/-- Claim C9: context injection.  When the per-call accumulator is
non-empty it is merged into the dispatched task's `context` parameter:
appended after the task's own `[]string` entries when present, set
otherwise; an empty accumulator leaves `context` untouched.  Moreover
the handler of a step receives exactly the enriched task — the recorded
result is the handler's value on `enrichTask` of the current task. -/
theorem context_injection_merge (g : String) (cd : List String) (t : Task) :
    (cd ≠ [] → ∀ own, lookupParam t.parameters "context" = some (PValue.strList own) →
      lookupParam (enrichTask g cd t).parameters "context" =
        some (PValue.strList (own ++ cd))) ∧
    (cd ≠ [] → (∀ own, lookupParam t.parameters "context" ≠ some (PValue.strList own)) →
      lookupParam (enrichTask g cd t).parameters "context" = some (PValue.strList cd)) ∧
    (cd = [] → lookupParam (enrichTask g cd t).parameters "context" =
      lookupParam t.parameters "context") ∧
    (∀ (reg : Registry) (msgs : List ChatMessage) (s : EState)
      (hi : s.i < s.tasks.length) (t2 : Task), s.tasks[s.i] = t2 →
      ∀ f : Handler, reg t2.type = some f →
        (f (enrichTask (buildGlobalContext msgs) s.contextData t2)).2 = none →
        ∃ s2 : EState, execStep reg msgs s = StepOut.next s2 ∧
          s2.results = s.results ++
            [(f (enrichTask (buildGlobalContext msgs) s.contextData t2)).1]) := by
  have hgc : ("global_context" : String) ≠ "context" := by decide
  refine ⟨?_, ?_, ?_, ?_⟩
  · intro hcd own hown
    have hpos : cd.length > 0 := List.length_pos.mpr hcd
    unfold enrichTask
    simp only [if_pos hpos, lookupParam_insert_other _ _ _ _ hgc, hown]
    exact lookupParam_insert_self _ _ _
  · intro hcd hnone
    have hpos : cd.length > 0 := List.length_pos.mpr hcd
    unfold enrichTask
    simp only [if_pos hpos, lookupParam_insert_other _ _ _ _ hgc]
    rcases hlook : lookupParam t.parameters "context" with _ | v
    · exact lookupParam_insert_self _ _ _
    · cases v with
      | str a => exact lookupParam_insert_self _ _ _
      | strList l => exact absurd hlook (hnone l)
      | other a => exact lookupParam_insert_self _ _ _
  · intro hcd
    subst hcd
    unfold enrichTask
    simp only [List.length_nil, gt_iff_lt, Nat.lt_irrefl, if_false]
    exact lookupParam_insert_other _ _ _ _ hgc
  · intro reg msgs s hi t2 ht f hreg hne
    have hf : f (enrichTask (buildGlobalContext msgs) s.contextData t2) =
        ((f (enrichTask (buildGlobalContext msgs) s.contextData t2)).1, none) := by
      rw [← hne]
    by_cases hsucc : (f (enrichTask (buildGlobalContext msgs) s.contextData t2)).1.success = true
    · by_cases hnew : (f (enrichTask (buildGlobalContext msgs) s.contextData t2)).1.newTasks.length > 0
      · exact ⟨_, execStep_success_new reg msgs s hi t2 ht f _ hreg hf hsucc hnew, rfl⟩
      · have hempty : (f (enrichTask (buildGlobalContext msgs) s.contextData t2)).1.newTasks = [] := by
          simpa using hnew
        exact ⟨_, execStep_success_nonew reg msgs s hi t2 ht f _ hreg hf hsucc hempty, rfl⟩
    · have hfalse : (f (enrichTask (buildGlobalContext msgs) s.contextData t2)).1.success = false := by
        simpa using hsucc
      exact ⟨_, execStep_failure reg msgs s hi t2 ht f _ hreg hf hfalse, rfl⟩

/-- Claim C9 witness: the three merge behaviours and the enriched
dispatch on concrete tasks and accumulators. -/
theorem context_injection_merge_witness :
    lookupParam (enrichTask "" ["c1"] tOwnCtx).parameters "context" =
      some (PValue.strList (["o1"] ++ ["c1"])) ∧
    lookupParam (enrichTask "" ["c1"] (tT "a")).parameters "context" =
      some (PValue.strList ["c1"]) ∧
    lookupParam (enrichTask "" [] tOwnCtx).parameters "context" =
      lookupParam tOwnCtx.parameters "context" ∧
    (∃ s2 : EState, execStep regEcho [] sEcho = StepOut.next s2 ∧
      s2.results = [] ++ [(fEcho (enrichTask (buildGlobalContext []) [] (tT "a"))).1]) :=
  ⟨(context_injection_merge "" ["c1"] tOwnCtx).1 (by decide) ["o1"] rfl,
   (context_injection_merge "" ["c1"] (tT "a")).2.1 (by decide)
     (fun own h => Option.noConfusion h),
   (context_injection_merge "" [] tOwnCtx).2.2.1 rfl,
   (context_injection_merge "" [] tOwnCtx).2.2.2 regEcho [] sEcho (by decide) (tT "a") rfl
     fEcho rfl rfl⟩

/-! ### Trace instrumentation lemmas -/

theorem execLoopT_succ (reg : Registry) (msgs : List ChatMessage) (fuel : Nat) (s : EState)
    (tr : List (Task × Result)) :
    execLoopT reg msgs (fuel + 1) s tr =
      match execStep reg msgs s with
      | StepOut.done s2 => some (Except.ok (s2, tr))
      | StepOut.fail m => some (Except.error m)
      | StepOut.next s2 =>
          if h : s.i < s.tasks.length then
            execLoopT reg msgs fuel s2
              (tr ++ [(s.tasks[s.i], dispatchR reg msgs s.contextData s.tasks[s.i])])
          else
            execLoopT reg msgs fuel s2 tr := rfl

theorem execStep_done_inv (reg : Registry) (msgs : List ChatMessage) (s s2 : EState)
    (h : execStep reg msgs s = StepOut.done s2) :
    s2 = s ∧ ¬ s.i < s.tasks.length := by
  by_cases hi : s.i < s.tasks.length
  · exfalso
    unfold execStep at h
    rw [dif_pos hi] at h
    rcases hr : reg ((s.tasks[s.i]).type) with _ | f
    · simp only [hr] at h
      exact StepOut.noConfusion h
    · simp only [hr] at h
      rcases hfe : f (enrichTask (buildGlobalContext msgs) s.contextData (s.tasks[s.i]))
        with ⟨r, oe⟩
      rcases oe with _ | e
      · simp only [hfe] at h
        by_cases hs : r.success = true
        · simp only [hs, if_true] at h
          exact StepOut.noConfusion h
        · simp only [hs, Bool.false_eq_true, if_false] at h
          exact StepOut.noConfusion h
      · simp only [hfe] at h
        exact StepOut.noConfusion h
  · unfold execStep at h
    rw [dif_neg hi] at h
    have h2 : s = s2 := by
      injection h
    exact ⟨h2.symm, hi⟩

theorem execStep_next_inv (reg : Registry) (msgs : List ChatMessage) (s s2 : EState)
    (h : execStep reg msgs s = StepOut.next s2) :
    ∃ hi : s.i < s.tasks.length,
      s2.results = s.results ++ [dispatchR reg msgs s.contextData (s.tasks.get ⟨s.i, hi⟩)] ∧
      s2.contextData = afterCtx reg msgs s.contextData (s.tasks.get ⟨s.i, hi⟩) := by
  by_cases hi : s.i < s.tasks.length
  · refine ⟨hi, ?_⟩
    unfold execStep at h
    rw [dif_pos hi] at h
    rcases hr : reg ((s.tasks[s.i]).type) with _ | f
    · simp only [hr] at h
      exact StepOut.noConfusion h
    · simp only [hr] at h
      rcases hfe : f (enrichTask (buildGlobalContext msgs) s.contextData (s.tasks[s.i]))
        with ⟨r, oe⟩
      have hdr : dispatchR reg msgs s.contextData (s.tasks.get ⟨s.i, hi⟩) = r := by
        show dispatchR reg msgs s.contextData (s.tasks[s.i]) = r
        unfold dispatchR
        simp only [hr, hfe]
      rcases oe with _ | e
      · simp only [hfe] at h
        by_cases hs : r.success = true
        · simp only [hs, if_true] at h
          have h2 := h.symm
          injection h2 with h3
          subst h3
          constructor
          · rw [hdr]
          · unfold afterCtx
            rw [hdr, if_pos hs]
            rfl
        · simp only [hs, Bool.false_eq_true, if_false] at h
          have h2 := h.symm
          injection h2 with h3
          subst h3
          constructor
          · rw [hdr]
          · unfold afterCtx
            rw [hdr, if_neg]
            simp [hs]
      · simp only [hfe] at h
        exact StepOut.noConfusion h
  · exfalso
    unfold execStep at h
    rw [dif_neg hi] at h
    exact StepOut.noConfusion h

theorem traceCtx_cons (p : Task × Result) (l : List (Task × Result)) :
    traceCtx (p :: l) =
      if p.2.success then entryOf p.1 p.2 :: traceCtx l else traceCtx l := by
  by_cases hs : p.2.success
  · simp [traceCtx, List.filter_cons, hs]
  · simp [traceCtx, List.filter_cons, hs]

/-- Invariant of the instrumented loop: a successful run extends the
trace; the final accumulator extends the initial one by exactly the
formatted entries of the successful steps, and the final results extend
the initial ones by exactly the traced results. -/
theorem execLoopT_invariant (reg : Registry) (msgs : List ChatMessage) :
    ∀ (fuel : Nat) (s : EState) (tr0 : List (Task × Result)) (st : EState)
      (tr : List (Task × Result)),
      execLoopT reg msgs fuel s tr0 = some (Except.ok (st, tr)) →
      execLoop reg msgs fuel s = some (Except.ok st) ∧
      ∃ ext, tr = tr0 ++ ext ∧
        st.contextData = s.contextData ++ traceCtx ext ∧
        st.results = s.results ++ ext.map (fun p => p.2) := by
  intro fuel
  induction fuel with
  | zero =>
    intro s tr0 st tr h
    exact absurd h (by simp [execLoopT])
  | succ fuel ih =>
    intro s tr0 st tr h
    rw [execLoopT_succ] at h
    rcases hstep : execStep reg msgs s with s2 | s2 | m
    · rw [hstep] at h
      dsimp only at h
      simp only [Option.some.injEq, Except.ok.injEq, Prod.mk.injEq] at h
      obtain ⟨hst, htr⟩ := h
      obtain ⟨hs2, _⟩ := execStep_done_inv reg msgs s s2 hstep
      subst hst
      subst htr
      refine ⟨by rw [execLoop_succ, hstep], [], by simp, ?_, ?_⟩
      · rw [hs2]
        simp [traceCtx]
      · rw [hs2]
        simp
    · rw [hstep] at h
      dsimp only at h
      obtain ⟨hi, hres, hctx⟩ := execStep_next_inv reg msgs s s2 hstep
      rw [dif_pos hi] at h
      obtain ⟨h1, ext2, hext2, hcd2, hres2⟩ := ih s2 _ st tr h
      refine ⟨by rw [execLoop_succ, hstep]; exact h1,
        (s.tasks.get ⟨s.i, hi⟩, dispatchR reg msgs s.contextData (s.tasks.get ⟨s.i, hi⟩)) :: ext2,
        ?_, ?_, ?_⟩
      · rw [hext2]
        simp [List.append_assoc, List.get_eq_getElem]
      · rw [hcd2, hctx, traceCtx_cons]
        unfold afterCtx
        by_cases hs : (dispatchR reg msgs s.contextData (s.tasks.get ⟨s.i, hi⟩)).success
        · rw [if_pos hs, if_pos hs]
          simp
        · rw [if_neg hs, if_neg hs]
      · rw [hres2, hres]
        simp
    · rw [hstep] at h
      dsimp only at h
      exact absurd h (by simp)

/-- Claim C5: at the end of every (successfully completed) `Execute`
run, the context accumulator — which starts empty — holds exactly one
entry per successfully executed task, in execution order, formatted as
`"Output from <TYPE> task:\n<output>"`; failed tasks contribute nothing.
The recorded results are the traced results in the same order. -/
theorem context_accumulator_exact (reg : Registry) (msgs : List ChatMessage)
    (ts : List Task) (fuel : Nat) (st : EState) (tr : List (Task × Result))
    (h : execLoopT reg msgs fuel ⟨ts, 0, [], []⟩ [] = some (Except.ok (st, tr))) :
    execLoop reg msgs fuel ⟨ts, 0, [], []⟩ = some (Except.ok st) ∧
    st.contextData = (tr.filter (fun p => p.2.success)).map
      (fun p => "Output from " ++ p.1.type ++ " task:\n" ++ p.2.output) ∧
    st.results = tr.map (fun p => p.2) := by
  obtain ⟨h1, ext, hext, hcd, hres⟩ := execLoopT_invariant reg msgs fuel _ [] st tr h
  rw [List.nil_append] at hext
  subst hext
  refine ⟨h1, ?_, ?_⟩
  · rw [hcd]
    simp [traceCtx, entryOf]
  · rw [hres]
    simp

/-- Claim C5 witness: a three-task run (success, semantic failure,
success) whose final accumulator has exactly the two successful
entries in order. -/
theorem context_accumulator_exact_witness :
    execLoop regMix [] 4 ⟨[tT "a", fTask, tT "b"], 0, [], []⟩ = some (Except.ok stMix) ∧
    stMix.contextData = (trMix.filter (fun p => p.2.success)).map
      (fun p => "Output from " ++ p.1.type ++ " task:\n" ++ p.2.output) ∧
    stMix.results = trMix.map (fun p => p.2) :=
  context_accumulator_exact regMix [] [tT "a", fTask, tT "b"] 4 stMix trMix rfl

/-! ### Plan review lemmas -/

theorem planReviewLoop_succ (gen : String → Except String Plan)
    (review : Nat → Plan → Except String String) (fuel : Nat) (plan : Plan)
    (round : Nat) (goals : List String) :
    planReviewLoop gen review (fuel + 1) plan round goals =
      match review round plan with
      | Except.error e => some (Except.error ("plan review failed: " ++ e), goals)
      | Except.ok m =>
        if m = "" then some (Except.ok plan, goals)
        else
          match gen m with
          | Except.error e => some (Except.error ("re-planning failed: " ++ e), goals ++ [m])
          | Except.ok p2 => planReviewLoop gen review fuel p2 (round + 1) (goals ++ [m]) := rfl

/-- Claim C6: `PlanWithReview` protocol.  With no review handler the
initially generated plan is returned verbatim after exactly one
generator call; a non-empty modification text triggers exactly one
additional generator call with that text as the new goal and the new
plan replaces the prior one entirely; a handler error fails the whole
call (so nothing is ever executed); and, in general, every review
round answered with a non-empty modification performs exactly one
further generator call, recorded in the goal trace, and continues from
the newly generated plan alone. -/
theorem plan_review_modification_protocol (gen : String → Except String Plan)
    (review : Nat → Plan → Except String String) (req : String) :
    (∀ p, gen req = Except.ok p → ∀ fuel,
      planWithReview gen none req fuel = some (Except.ok p, [req])) ∧
    (∀ p m p2, gen req = Except.ok p → review 0 p = Except.ok m → m ≠ "" →
      gen m = Except.ok p2 → review 1 p2 = Except.ok "" → ∀ fuel,
      planWithReview gen (some review) req (fuel + 2) =
        some (Except.ok p2, [req, m])) ∧
    (∀ p e, gen req = Except.ok p → review 0 p = Except.error e → ∀ fuel,
      planWithReview gen (some review) req (fuel + 1) =
        some (Except.error ("plan review failed: " ++ e), [req])) ∧
    (∀ (fuel round : Nat) (plan p2 : Plan) (goals : List String) (m : String),
      review round plan = Except.ok m → m ≠ "" → gen m = Except.ok p2 →
      planReviewLoop gen review (fuel + 1) plan round goals =
        planReviewLoop gen review fuel p2 (round + 1) (goals ++ [m])) := by
  refine ⟨?_, ?_, ?_, ?_⟩
  · intro p hgen fuel
    unfold planWithReview
    rw [hgen]
  · intro p m p2 hgen hrev0 hm hgen2 hrev1 fuel
    unfold planWithReview
    rw [hgen]
    dsimp only
    have h2 : fuel + 2 = (fuel + 1) + 1 := rfl
    rw [h2, planReviewLoop_succ, hrev0]
    dsimp only
    rw [if_neg hm, hgen2]
    dsimp only
    rw [planReviewLoop_succ, hrev1]
    rfl
  · intro p e hgen hrev0 fuel
    unfold planWithReview
    rw [hgen]
    dsimp only
    rw [planReviewLoop_succ, hrev0]
  · intro fuel round plan p2 goals m hrev hm hgen2
    rw [planReviewLoop_succ, hrev]
    dsimp only
    rw [if_neg hm, hgen2]

/-- Claim C6 witness: a generator producing plan `A` for the original
goal and plan `B` for the modification text, reviewed by a
one-modification reviewer, an absent reviewer, and a failing reviewer. -/
theorem plan_review_modification_protocol_witness :
    planWithReview genAB none "goal" 3 = some (Except.ok planA, ["goal"]) ∧
    planWithReview genAB (some reviewOnce) "goal" (1 + 2) =
      some (Except.ok planB, ["goal", "modify it"]) ∧
    planWithReview genAB (some reviewErr) "goal" (2 + 1) =
      some (Except.error ("plan review failed: " ++ "review broke"), ["goal"]) ∧
    planReviewLoop genAB reviewOnce (1 + 1) planA 0 ["goal"] =
      planReviewLoop genAB reviewOnce 1 planB (0 + 1) (["goal"] ++ ["modify it"]) :=
  ⟨(plan_review_modification_protocol genAB reviewOnce "goal").1 planA rfl 3,
   (plan_review_modification_protocol genAB reviewOnce "goal").2.1 planA "modify it" planB
     rfl rfl (by decide) rfl rfl 1,
   (plan_review_modification_protocol genAB reviewErr "goal").2.2.1 planA "review broke"
     rfl rfl 2,
   (plan_review_modification_protocol genAB reviewOnce "goal").2.2.2 1 0 planA planB
     ["goal"] "modify it" rfl (by decide) rfl⟩

/-! ### Reflection loop lemmas -/

theorem reflectLoop_succ (tavily ddg : String → Except String String)
    (llm : Nat → String → Except String String) (query : String)
    (n round : Nat) (acc : String) :
    reflectLoop tavily ddg llm query (n + 1) round acc =
      match llm round (truncatePrompt (reflectionPrompt query acc)) with
      | Except.error _ => acc
      | Except.ok content =>
        if containsSufficient (trimString content) then acc
        else
          reflectLoop tavily ddg llm query n (round + 1)
            (match tavily (trimQuotes (trimString content)) with
             | Except.ok r => acc ++ "\n\n--- Additional Search Results ---\n" ++ r
             | Except.error _ =>
               match ddg (trimQuotes (trimString content)) with
               | Except.ok r => acc ++ "\n\n--- Additional Search Results ---\n" ++ r
               | Except.error _ => acc) := rfl

theorem reflectLoopT_succ (tavily ddg : String → Except String String)
    (llm : Nat → String → Except String String) (query : String)
    (n round : Nat) (acc : String) :
    reflectLoopT tavily ddg llm query (n + 1) round acc =
      match llm round (truncatePrompt (reflectionPrompt query acc)) with
      | Except.error _ => (acc, 1, 0)
      | Except.ok content =>
        if containsSufficient (trimString content) then (acc, 1, 0)
        else
          ((reflectLoopT tavily ddg llm query n (round + 1)
              (match tavily (trimQuotes (trimString content)) with
               | Except.ok r => acc ++ "\n\n--- Additional Search Results ---\n" ++ r
               | Except.error _ =>
                 match ddg (trimQuotes (trimString content)) with
                 | Except.ok r => acc ++ "\n\n--- Additional Search Results ---\n" ++ r
                 | Except.error _ => acc)).1,
            (reflectLoopT tavily ddg llm query n (round + 1)
              (match tavily (trimQuotes (trimString content)) with
               | Except.ok r => acc ++ "\n\n--- Additional Search Results ---\n" ++ r
               | Except.error _ =>
                 match ddg (trimQuotes (trimString content)) with
                 | Except.ok r => acc ++ "\n\n--- Additional Search Results ---\n" ++ r
                 | Except.error _ => acc)).2.1 + 1,
            (reflectLoopT tavily ddg llm query n (round + 1)
              (match tavily (trimQuotes (trimString content)) with
               | Except.ok r => acc ++ "\n\n--- Additional Search Results ---\n" ++ r
               | Except.error _ =>
                 match ddg (trimQuotes (trimString content)) with
                 | Except.ok r => acc ++ "\n\n--- Additional Search Results ---\n" ++ r
                 | Except.error _ => acc)).2.2 + 1) := rfl

theorem reflectLoopT_fst (tavily ddg : String → Except String String)
    (llm : Nat → String → Except String String) (query : String) :
    ∀ (n round : Nat) (acc : String),
      (reflectLoopT tavily ddg llm query n round acc).1 =
        reflectLoop tavily ddg llm query n round acc := by
  intro n
  induction n with
  | zero => intro round acc; rfl
  | succ n ih =>
    intro round acc
    rw [reflectLoop_succ, reflectLoopT_succ]
    rcases hllm : llm round (truncatePrompt (reflectionPrompt query acc)) with e | content
    · rfl
    · dsimp only
      by_cases hc : containsSufficient (trimString content)
      · rw [if_pos hc, if_pos hc]
      · rw [if_neg hc, if_neg hc]
        exact ih (round + 1) _

theorem reflectLoopT_insufficient (tavily ddg : String → Except String String)
    (llm : Nat → String → Except String String) (query : String)
    (H : ∀ r p, ∃ d, llm r p = Except.ok d ∧ containsSufficient (trimString d) = false) :
    ∀ (n round : Nat) (acc : String),
      (reflectLoopT tavily ddg llm query n round acc).2.1 = n ∧
      (reflectLoopT tavily ddg llm query n round acc).2.2 = n := by
  intro n
  induction n with
  | zero => intro round acc; exact ⟨rfl, rfl⟩
  | succ n ih =>
    intro round acc
    obtain ⟨d, hd, hins⟩ := H round (truncatePrompt (reflectionPrompt query acc))
    rw [reflectLoopT_succ, hd]
    dsimp only
    rw [if_neg (by simp [hins])]
    obtain ⟨ih1, ih2⟩ := ih (round + 1)
      (match tavily (trimQuotes (trimString d)) with
       | Except.ok r => acc ++ "\n\n--- Additional Search Results ---\n" ++ r
       | Except.error _ =>
         match ddg (trimQuotes (trimString d)) with
         | Except.ok r => acc ++ "\n\n--- Additional Search Results ---\n" ++ r
         | Except.error _ => acc)
    exact ⟨by rw [ih1], by rw [ih2]⟩

/-- Claim C7: the reflection loop with ceiling 3.  The instrumented loop
agrees with the source loop; an evaluator that never deems the results
sufficient yields exactly 3 evaluation calls and 3 refinement queries
(so at most 3 rounds are ever performed); an evaluator answering
`SUFFICIENT` at round 0 stops the loop immediately with the accumulation
unchanged; an evaluator error at round 0 is non-fatal — the search task
still succeeds, keeping the initially accumulated results. -/
theorem search_reflection_ceiling (tavily ddg : String → Except String String)
    (llm : Nat → String → Except String String) (query : String) :
    (∀ (n round : Nat) (acc : String),
      (reflectLoopT tavily ddg llm query n round acc).1 =
        reflectLoop tavily ddg llm query n round acc) ∧
    ((∀ r p, ∃ d, llm r p = Except.ok d ∧ containsSufficient (trimString d) = false) →
      ∀ acc, (reflectLoopT tavily ddg llm query maxIterations 0 acc).2.1 = 3 ∧
        (reflectLoopT tavily ddg llm query maxIterations 0 acc).2.2 = 3) ∧
    (∀ acc d, llm 0 (truncatePrompt (reflectionPrompt query acc)) = Except.ok d →
      containsSufficient (trimString d) = true →
      reflectLoop tavily ddg llm query maxIterations 0 acc = acc ∧
      reflectLoopT tavily ddg llm query maxIterations 0 acc = (acc, 1, 0)) ∧
    (∀ (wiki : String → Except String String) (task : Task) (q sr e : String),
      lookupParam task.parameters "query" = some (PValue.str q) →
      tavily q = Except.ok sr →
      llm 0 (truncatePrompt (reflectionPrompt q sr)) = Except.error e →
      searchExecute tavily ddg wiki llm task =
        ({ taskType := "SEARCH", success := true, output := wikiWrap wiki q sr,
           error := "", metadata := [("query", PValue.str q)], newTasks := [] }, none)) := by
  refine ⟨reflectLoopT_fst tavily ddg llm query, ?_, ?_, ?_⟩
  · intro H acc
    exact reflectLoopT_insufficient tavily ddg llm query H maxIterations 0 acc
  · intro acc d hd hc
    constructor
    · rw [show maxIterations = 2 + 1 from rfl, reflectLoop_succ, hd]
      dsimp only
      rw [if_pos (by simp [hc])]
    · rw [show maxIterations = 2 + 1 from rfl, reflectLoopT_succ, hd]
      dsimp only
      rw [if_pos (by simp [hc])]
  · intro wiki task q sr e hlook htav hllm
    unfold searchExecute
    rw [hlook]
    dsimp only
    rw [htav]
    dsimp only
    unfold searchFinish
    rw [show maxIterations = 2 + 1 from rfl, reflectLoop_succ, hllm]

/-- Claim C7 witness: the three behaviours at concrete oracles — an
always-insufficient evaluator (3 rounds), an immediately-sufficient
evaluator (1 round, no refinement) and a failing evaluator (task still
succeeds with the initial results). -/
theorem search_reflection_ceiling_witness :
    ((reflectLoopT tavOk ddgFail llmInsufficient "q" maxIterations 0 "acc").2.1 = 3 ∧
      (reflectLoopT tavOk ddgFail llmInsufficient "q" maxIterations 0 "acc").2.2 = 3) ∧
    (reflectLoop tavOk ddgFail llmSufficient "q" maxIterations 0 "acc" = "acc" ∧
      reflectLoopT tavOk ddgFail llmSufficient "q" maxIterations 0 "acc" = ("acc", 1, 0)) ∧
    searchExecute tavOk ddgFail wikiOk llmErr taskQ =
      ({ taskType := "SEARCH", success := true,
         output := wikiWrap wikiOk "golang" "results for golang",
         error := "", metadata := [("query", PValue.str "golang")], newTasks := [] }, none) :=
  ⟨(search_reflection_ceiling tavOk ddgFail llmInsufficient "q").2.1
      (fun r p => ⟨"more data needed", rfl, by decide⟩) "acc",
   (search_reflection_ceiling tavOk ddgFail llmSufficient "q").2.2.1 "acc" "SUFFICIENT"
      rfl (by decide),
   (search_reflection_ceiling tavOk ddgFail llmErr "q").2.2.2 wikiOk taskQ "golang"
      "results for golang" "llm down" rfl rfl rfl⟩

/-- Claim C8 (code evaluation): when Tavily and DuckDuckGo both fail,
`SearchSubagent.Execute` surfaces the failure immediately — Wikipedia is
never consulted on the failure path even when it would answer (it is
only a post-success supplement), contradicting the documented
Tavily → DuckDuckGo → Wikipedia fallback chain. -/
theorem search_fallback_skips_wikipedia :
    searchExecute tavFail ddgFail wikiOk llmSufficient taskQ =
      ({ taskType := "SEARCH", success := false, output := "",
         error := "duckduckgo unavailable", metadata := [], newTasks := [] },
        some "duckduckgo unavailable") ∧
    wikiOk "golang" = Except.ok "wikipedia content" :=
  ⟨rfl, rfl⟩

/-- Claim C2: insertion ordering and result count.  For a plan `orig` of
`N` tasks where exactly the task at index `k` succeeds returning the new
tasks `newT` (`M` of them, under any accumulator), every other task
(and every inserted task) being tame, the run completes with exactly
`N + M` results; results `k+1 .. k+M` are the results of the `M`
inserted tasks (executed in order right after the insertion point), and
they come before the results of the original tasks `k+1 .. N-1`, which
occupy the final positions. -/
theorem insertion_result_order (reg : Registry) (msgs : List ChatMessage)
    (orig : List Task) (k : Nat) (hk : k < orig.length) (newT : List Task)
    (Hpre : ∀ t ∈ orig.take k, Tame reg msgs t)
    (Hk : ∀ cd, ∃ f : Handler, reg (orig[k].type) = some f ∧
      (f (enrichTask (buildGlobalContext msgs) cd orig[k])).2 = none ∧
      (f (enrichTask (buildGlobalContext msgs) cd orig[k])).1.success = true ∧
      (f (enrichTask (buildGlobalContext msgs) cd orig[k])).1.newTasks = newT)
    (HnewT : ∀ t ∈ newT, Tame reg msgs t)
    (Hpost : ∀ t ∈ orig.drop (k + 1), Tame reg msgs t) :
    ∃ st : EState,
      execLoop reg msgs (orig.length + newT.length + 1) ⟨orig, 0, [], []⟩ =
        some (Except.ok st) ∧
      st.results =
        linearResults reg msgs (orig.take k) [] ++
          dispatchR reg msgs (linearCtx reg msgs (orig.take k) []) orig[k] ::
          (linearResults reg msgs newT
              (linearCtx reg msgs (orig.take k) [] ++
                [entryOf orig[k]
                  (dispatchR reg msgs (linearCtx reg msgs (orig.take k) []) orig[k])]) ++
            linearResults reg msgs (orig.drop (k + 1))
              (linearCtx reg msgs newT
                (linearCtx reg msgs (orig.take k) [] ++
                  [entryOf orig[k]
                    (dispatchR reg msgs (linearCtx reg msgs (orig.take k) []) orig[k])]))) ∧
      st.results.length = orig.length + newT.length ∧
      (st.results.drop (k + 1)).take newT.length =
        linearResults reg msgs newT
          (linearCtx reg msgs (orig.take k) [] ++
            [entryOf orig[k]
              (dispatchR reg msgs (linearCtx reg msgs (orig.take k) []) orig[k])]) ∧
      st.results.drop (k + 1 + newT.length) =
        linearResults reg msgs (orig.drop (k + 1))
          (linearCtx reg msgs newT
            (linearCtx reg msgs (orig.take k) [] ++
              [entryOf orig[k]
                (dispatchR reg msgs (linearCtx reg msgs (orig.take k) []) orig[k])])) := by
  have hlenA : (orig.take k).length = k := by
    rw [List.length_take]
    omega
  have hsplit : orig.take k ++ (orig[k] :: orig.drop (k + 1)) = orig := by
    rw [← List.drop_eq_getElem_cons hk, List.take_append_drop]
  set g := buildGlobalContext msgs with hg
  set A := orig.take k with hA
  set post := orig.drop (k + 1) with hpost
  set c1 := linearCtx reg msgs A [] with hc1
  set R1 := linearResults reg msgs A [] with hR1
  obtain ⟨f, hregk, hnek, hsucck, hnewk⟩ := Hk c1
  set rk := dispatchR reg msgs c1 orig[k] with hrk
  have hrk_eq : rk = (f (enrichTask g c1 orig[k])).1 := by
    rw [hrk]
    unfold dispatchR
    rw [hregk]
  set c2 := c1 ++ [entryOf orig[k] rk] with hc2
  set R2 := linearResults reg msgs newT c2 with hR2
  set c3 := linearCtx reg msgs newT c2 with hc3
  set R3 := linearResults reg msgs post c3 with hR3
  have hlenpost : post.length = orig.length - (k + 1) := by
    rw [hpost, List.length_drop]
  have hlenAk : (orig.take (k + 1)).length = k + 1 := by
    rw [List.length_take]
    omega
  have hfk : f (enrichTask g c1 orig[k]) = ((f (enrichTask g c1 orig[k])).1, none) := by
    rw [← hnek]
  -- the final state
  refine ⟨⟨orig.take (k + 1) ++ newT ++ post, k + 1 + newT.length + post.length,
    (R1 ++ [rk]) ++ R2 ++ R3, linearCtx reg msgs post c3⟩, ?_, ?_, ?_, ?_, ?_⟩
  · -- the run equation
    -- phase 1: the k tame tasks before the insertion point
    have hseg1 := execLoop_segment reg msgs A Hpre [] (orig[k] :: post) [] []
      ((orig.length - k) + newT.length + 1)
    simp only [List.nil_append, List.length_nil, Nat.zero_add] at hseg1
    rw [hA] at hseg1
    rw [hsplit] at hseg1
    rw [← hA, ← hc1, ← hR1, hlenA] at hseg1
    have hfuel1 : orig.length + newT.length + 1 =
        k + ((orig.length - k) + newT.length + 1) := by omega
    rw [hfuel1, hseg1]
    -- phase 2: the inserting step at index k
    have hfuel2 : (orig.length - k) + newT.length + 1 =
        ((orig.length - (k + 1)) + newT.length + 1) + 1 := by omega
    rw [hfuel2, execLoop_succ]
    have hstepstate :
        execStep reg msgs ⟨orig, k, R1, c1⟩ = StepOut.next
          ⟨orig.take (k + 1) ++ newT ++ post, k + 1, R1 ++ [rk], c2⟩ := by
      by_cases hM : 0 < newT.length
      · have hn : (f (enrichTask g c1 orig[k])).1.newTasks.length > 0 := by
          rw [hnewk]
          exact hM
        have h := execStep_success_new reg msgs ⟨orig, k, R1, c1⟩ hk orig[k] rfl f
          ((f (enrichTask g c1 orig[k])).1) hregk hfk hsucck hn
        rw [h, hnewk, ← hrk_eq]
        rfl
      · have hMe : newT = [] := by
          cases newT with
          | nil => rfl
          | cons a l => exact absurd (by simp) hM
        have hn : (f (enrichTask g c1 orig[k])).1.newTasks = [] := by
          rw [hnewk, hMe]
        have h := execStep_success_nonew reg msgs ⟨orig, k, R1, c1⟩ hk orig[k] rfl f
          ((f (enrichTask g c1 orig[k])).1) hregk hfk hsucck hn
        rw [h, ← hrk_eq]
        subst hMe
        rw [show orig.take (k + 1) ++ [] ++ post = orig.take (k + 1) ++ post by simp]
        rw [hpost, List.take_append_drop]
        rfl
    rw [hstepstate]
    dsimp only
    -- phase 3: the inserted tasks
    have hseg2 := execLoop_segment reg msgs newT HnewT (orig.take (k + 1)) post
      (R1 ++ [rk]) c2 ((orig.length - (k + 1)) + 1)
    rw [hlenAk, ← hR2, ← hc3] at hseg2
    have hfuel3 : (orig.length - (k + 1)) + newT.length + 1 =
        newT.length + ((orig.length - (k + 1)) + 1) := by omega
    rw [hfuel3, hseg2]
    -- phase 4: the remaining original tasks
    have hseg3 := execLoop_segment reg msgs post Hpost (orig.take (k + 1) ++ newT) []
      ((R1 ++ [rk]) ++ R2) c3 1
    simp only [List.append_nil, List.length_append] at hseg3
    rw [hlenAk, ← hR3] at hseg3
    have hfuel4 : (orig.length - (k + 1)) + 1 = post.length + 1 := by
      rw [hlenpost]
    rw [hfuel4]
    have hassoc : (orig.take (k + 1) ++ newT) ++ post = orig.take (k + 1) ++ newT ++ post := by
      simp
    rw [hassoc] at hseg3
    rw [hseg3]
    -- phase 5: the loop terminates
    rw [execLoop_done]
    simp only [List.length_append, hlenAk, not_lt]
    omega
  · -- results in order
    simp
  · -- result count
    have l1 : R1.length = k := by
      rw [hR1, linearResults_length, hlenA]
    have l2 : R2.length = newT.length := by
      rw [hR2, linearResults_length]
    have l3 : R3.length = post.length := by
      rw [hR3, linearResults_length]
    show ((R1 ++ [rk]) ++ R2 ++ R3).length = orig.length + newT.length
    rw [List.length_append, List.length_append, List.length_append, l1, l2, l3, hlenpost]
    simp only [List.length_cons, List.length_nil]
    omega
  · -- results k+1 .. k+M are those of the inserted tasks
    have l12 : (R1 ++ [rk]).length = k + 1 := by
      rw [List.length_append, hR1, linearResults_length, hlenA]
      rfl
    have hd : ((R1 ++ [rk]) ++ R2 ++ R3).drop (k + 1) = R2 ++ R3 := by
      rw [List.append_assoc (R1 ++ [rk]) R2 R3, List.drop_left' l12]
    rw [hd]
    exact List.take_left' (by rw [hR2, linearResults_length])
  · -- the remaining original tasks come last
    have l123 : ((R1 ++ [rk]) ++ R2).length = k + 1 + newT.length := by
      rw [List.length_append, List.length_append, hR1, hR2, linearResults_length,
        linearResults_length, hlenA]
      rfl
    exact List.drop_left' l123

/-- Claim C2 witness: a three-task plan whose middle task inserts one
new task; the run yields 4 results with the inserted task's result at
position 2, before the last original task's result. -/
theorem insertion_result_order_witness :
    ∃ st : EState,
      execLoop regSplice [] (3 + 1 + 1) ⟨[tT "a", sTask, tT "b"], 0, [], []⟩ =
        some (Except.ok st) ∧
      st.results =
        linearResults regSplice [] [tT "a"] [] ++
          dispatchR regSplice [] (linearCtx regSplice [] [tT "a"] []) sTask ::
          (linearResults regSplice [] [tT "n1"] c2W ++
            linearResults regSplice [] [tT "b"] c3W) ∧
      st.results.length = 3 + 1 ∧
      (st.results.drop (1 + 1)).take 1 = linearResults regSplice [] [tT "n1"] c2W ∧
      st.results.drop (1 + 1 + 1) = linearResults regSplice [] [tT "b"] c3W := by
  have hpre : ∀ t ∈ [tT "a", sTask, tT "b"].take 1, Tame regSplice [] t := by
    intro t ht
    have ht2 : t = tT "a" := by simpa using ht
    subst ht2
    intro cd
    exact ⟨fEcho, rfl, rfl, rfl⟩
  have hk : ∀ cd, ∃ f : Handler, regSplice (([tT "a", sTask, tT "b"])[1].type) = some f ∧
      (f (enrichTask (buildGlobalContext []) cd ([tT "a", sTask, tT "b"])[1])).2 = none ∧
      (f (enrichTask (buildGlobalContext []) cd ([tT "a", sTask, tT "b"])[1])).1.success = true ∧
      (f (enrichTask (buildGlobalContext []) cd ([tT "a", sTask, tT "b"])[1])).1.newTasks =
        [tT "n1"] := by
    intro cd
    exact ⟨fSplice, rfl, rfl, rfl, rfl⟩
  have hnew : ∀ t ∈ [tT "n1"], Tame regSplice [] t := by
    intro t ht
    have ht2 : t = tT "n1" := by simpa using ht
    subst ht2
    intro cd
    exact ⟨fEcho, rfl, rfl, rfl⟩
  have hpost : ∀ t ∈ [tT "a", sTask, tT "b"].drop (1 + 1), Tame regSplice [] t := by
    intro t ht
    have ht2 : t = tT "b" := by simpa using ht
    subst ht2
    intro cd
    exact ⟨fEcho, rfl, rfl, rfl⟩
  exact insertion_result_order regSplice [] [tT "a", sTask, tT "b"] 1 (by decide)
    [tT "n1"] hpre hk hnew hpost

end Agent
